import Mathlib

/-!
Shallow embedding of the retry/dedupe core of the conversations service
(`conversations_src/use_cases/job_queue.py`, `dlq.py`, `retry_utils.py`,
`webhook_events.py`) together with the row types it reads and writes
(`conversations_src/adapters/db/models.py`, `llm_turns_model.py`).

Conventions of the embedding:
* UUID values are modelled as `Nat`; nullable columns as `Option`.
* Timestamps are `Nat` (minutes); `datetime.now()` becomes an explicit
  `now` argument, and generated primary keys (`uuid.uuid4()` / column
  defaults) become explicit `newId` arguments.
* A SQLAlchemy session holding the four tables is a `DB` value; every
  statement that can raise (`scalar_one_or_none` raises on more than one
  row) runs in `Except Unit`.
* JSONB payloads are opaque: a `Nat` stands for the payload value.
* `random.uniform(0.75, 1.25)` becomes an explicit rational
  `jitter_factor` argument, as the spec requires the backoff to be
  deterministic given the random source.
-/

namespace Conversations

/-- The string domain of `is_operation_processed`'s `operation_id`
parameter: a string either parses as a UUID (`uuid.UUID(s)` succeeds,
yielding the UUID value `u`) or it does not.  Strings holding valid
UUIDs are taken in canonical form, so equality of `validUUID` values
coincides with string equality. -/
inductive OpId where
  | validUUID (u : Nat)
  | invalid (s : String)
deriving DecidableEq, Repr

/-- Row of `job_queue` (`models.py`, class JobQueue). -/
structure JobRow where
  id : Nat
  workspace_id : Nat
  operation_id : Option Nat
  job_type : String
  payload : Nat
  priority : Int
  attempts : Nat
  max_attempts : Nat
  status : String
  created_at : Nat
  started_at : Option Nat := none
  completed_at : Option Nat := none
  failed_at : Option Nat := none
  error_message : Option String := none
deriving DecidableEq, Repr

/-- Row of `webhook_events` (`models.py`, class WebhookEvent). -/
structure EventRow where
  id : Nat
  workspace_id : Nat
  operation_id : Option Nat
  event_type : String
  external_id : Option String
  payload : Nat
  status : String
  attempts : Nat
  created_at : Nat
  processed_at : Option Nat := none
deriving DecidableEq, Repr

/-- Row of `dead_letter_queue` (`models.py`, class DeadLetterQueue). -/
structure DlqRow where
  id : Nat
  workspace_id : Nat
  operation_id : Option Nat
  original_table : Option String
  original_id : Option Nat
  event_type : String
  payload : Nat
  status : String := "failed"
  error_message : String
  error_code : Option String := none
  retry_count : Nat
  max_retries : Nat
  created_at : Nat
  last_attempt_at : Option Nat := none
  next_retry_at : Option Nat := none
deriving DecidableEq, Repr

/-- Row of `llm_turns` (`llm_turns_model.py`): `operation_id` is a
non-nullable string column. -/
structure TurnRow where
  id : Nat
  operation_id : OpId
  status : String := "pending"
deriving DecidableEq, Repr

/-- The four tables touched by the retry/dedupe core. -/
structure DB where
  jobQueue : List JobRow := []
  webhookEvents : List EventRow := []
  dlq : List DlqRow := []
  llmTurns : List TurnRow := []
deriving DecidableEq, Repr

/-- `Result.scalar_one_or_none()`: `none` on no row, the row when it is
unique, and an exception (`MultipleResultsFound`) on two or more rows. -/
def scalarOneOrNone {α : Type} (l : List α) : Except Unit (Option α) :=
  match l with
  | [] => .ok none
  | [x] => .ok (some x)
  | _ => .error ()

instance {ε α : Type} [DecidableEq ε] [DecidableEq α] : DecidableEq (Except ε α) :=
  fun a b =>
    match a, b with
    | .error x, .error y =>
      match decEq x y with
      | isTrue h => isTrue (by rw [h])
      | isFalse h => isFalse (fun hh => h (Except.error.inj hh))
    | .ok x, .ok y =>
      match decEq x y with
      | isTrue h => isTrue (by rw [h])
      | isFalse h => isFalse (fun hh => h (Except.ok.inj hh))
    | .error _, .ok _ => isFalse (fun hh => Except.noConfusion hh)
    | .ok _, .error _ => isFalse (fun hh => Except.noConfusion hh)

/-! ### Job queue service (`job_queue.py`) -/

/-- The status filter of `JobQueueService._get_job_by_operation_id`
(`status.in_(["pending", "processing", "completed"])`). -/
def activeJobStatuses : List String := ["pending", "processing", "completed"]

/-- `JobQueueService._get_job_by_operation_id`: select a `job_queue` row
by `(workspace_id, operation_id)`, restricted to the active statuses
(failed / dlq_sent rows are not returned). -/
def getJobByOperationId (db : DB) (workspace_id : Nat) (operation_id : Nat) :
    Except Unit (Option JobRow) :=
  scalarOneOrNone (db.jobQueue.filter (fun j =>
    j.workspace_id == workspace_id && j.operation_id == some operation_id &&
      activeJobStatuses.contains j.status))

/-- The fresh `pending` row built by `enqueue_job` (column defaults of
`JobQueue` filled in). -/
def newJob (newId now workspace_id : Nat) (operation_id : Option Nat)
    (job_type : String) (payload : Nat) (priority : Int) (max_attempts : Nat) :
    JobRow :=
  { id := newId, workspace_id := workspace_id, operation_id := operation_id,
    job_type := job_type, payload := payload, priority := priority,
    attempts := 0, max_attempts := max_attempts, status := "pending",
    created_at := now }

/-- `JobQueueService.enqueue_job`: when `operation_id` is given and a
matching active row exists, return it and leave the session untouched;
otherwise insert a fresh `pending` row.  `newId` is the generated
primary key of the would-be new row and `now` its `created_at`. -/
def enqueue_job (db : DB) (newId now : Nat) (workspace_id : Nat)
    (operation_id : Option Nat) (job_type : String) (payload : Nat)
    (priority : Int := 0) (max_attempts : Nat := 3) :
    Except Unit (JobRow × DB) :=
  let found : Except Unit (Option JobRow) :=
    match operation_id with
    | some op => getJobByOperationId db workspace_id op
    | none => .ok none
  match found with
  | .error e => .error e
  | .ok (some existing) => .ok (existing, db)
  | .ok none =>
    let job := newJob newId now workspace_id operation_id job_type payload
      priority max_attempts
    .ok (job, { db with jobQueue := db.jobQueue ++ [job] })

/-- The `ORDER BY priority DESC, created_at ASC` comparison of
`JobQueueService._get_pending_jobs`. -/
def jobOrder (a b : JobRow) : Bool :=
  if a.priority == b.priority then a.created_at ≤ b.created_at
  else b.priority < a.priority

/-- Insertion step of the sort modelling the SQL `ORDER BY`. -/
def insertJob (j : JobRow) : List JobRow → List JobRow
  | [] => [j]
  | a :: t => if jobOrder j a then j :: a :: t else a :: insertJob j t

/-- Sort modelling the SQL `ORDER BY priority DESC, created_at ASC`. -/
def sortJobs : List JobRow → List JobRow
  | [] => []
  | a :: t => insertJob a (sortJobs t)

/-- `JobQueueService._get_pending_jobs`: `pending` rows ordered by
priority (descending) then creation time, limited to `limit`. -/
def getPendingJobs (db : DB) (limit : Nat) : List JobRow :=
  (sortJobs (db.jobQueue.filter (fun j => j.status == "pending"))).take limit

/-- `JobQueueService._mark_job_started`: `UPDATE job_queue SET
status='processing', started_at=now WHERE id=job_id` — note the
`WHERE` clause checks only the id, not the current status. -/
def markJobStarted (db : DB) (now : Nat) (job_id : Nat) : DB :=
  { db with jobQueue := db.jobQueue.map (fun j =>
      if j.id == job_id then { j with status := "processing", started_at := some now }
      else j) }

/-- `JobQueueService._mark_job_completed`. -/
def markJobCompleted (db : DB) (now : Nat) (job_id : Nat) : DB :=
  { db with jobQueue := db.jobQueue.map (fun j =>
      if j.id == job_id then { j with status := "completed", completed_at := some now }
      else j) }

/-- `JobQueueService._mark_job_failed`. -/
def markJobFailed (db : DB) (now : Nat) (job_id : Nat) (error_message : String) : DB :=
  { db with jobQueue := db.jobQueue.map (fun j =>
      if j.id == job_id then
        { j with status := "failed", failed_at := some now,
                 error_message := some error_message }
      else j) }

/-- `JobQueueService._mark_job_dlq_sent`. -/
def markJobDlqSent (db : DB) (job_id : Nat) : DB :=
  { db with jobQueue := db.jobQueue.map (fun j =>
      if j.id == job_id then { j with status := "dlq_sent" } else j) }

/-- `JobQueueService._process_job`: succeeds only for the
`example_job` type, otherwise raises `ValueError`. -/
def processJobType (j : JobRow) : Except String Unit :=
  if j.job_type == "example_job" then .ok ()
  else .error ("Unknown job type: " ++ j.job_type)

/-! ### Backoff policy and DLQ service (`dlq.py`) -/

/-- Configuration of `ExponentialBackoff.__init__` with its defaults
(1 minute base, 24 h cap, doubling, jitter on). -/
structure ExponentialBackoff where
  base_delay_minutes : Int := 1
  max_delay_minutes : Int := 60 * 24
  multiplier : ℚ := 2
  jitter : Bool := true
deriving DecidableEq, Repr

/-- `ExponentialBackoff.calculate_delay`.  The uniform random draw is
the explicit `jitter_factor` argument.  Python's `int()` truncates
toward zero; every value reaching it here is nonnegative for
`jitter_factor ≥ 0`, where truncation and `Int.floor` agree. -/
def calculate_delay (b : ExponentialBackoff) (jitter_factor : ℚ) (attempt : Int) : Int :=
  if attempt ≤ 0 then 0
  else
    let delay : ℚ := (b.base_delay_minutes : ℚ) * b.multiplier ^ (attempt - 1).toNat
    let delay : ℚ := min delay (b.max_delay_minutes : ℚ)
    let delay : ℚ := if b.jitter then ((⌊delay * jitter_factor⌋ : Int) : ℚ) else delay
    max 1 ⌊delay⌋

/-- `DLQService.add_to_dlq`: unconditionally insert a new
`dead_letter_queue` row and return its generated id.  `newId` is the
`uuid.uuid4()` value and `now` the `datetime.now()` value. -/
def add_to_dlq (db : DB) (newId now : Nat) (workspace_id : Nat)
    (operation_id : Option Nat) (event_type : String) (payload : Nat)
    (error_message : String) (error_code : Option String := none)
    (original_table : Option String := none) (original_id : Option Nat := none)
    (retry_count : Nat := 0) (max_retries : Nat := 3) : Nat × DB :=
  let entry : DlqRow :=
    { id := newId, workspace_id := workspace_id, operation_id := operation_id,
      original_table := original_table, original_id := original_id,
      event_type := event_type, payload := payload,
      error_message := error_message, error_code := error_code,
      retry_count := retry_count, max_retries := max_retries,
      created_at := now, last_attempt_at := some now }
  (newId, { db with dlq := db.dlq ++ [entry] })

/-- `DLQService.get_pending_retry`: rows with `retry_count <
max_retries` whose `next_retry_at` is null or has passed, limited to
`limit`. -/
def get_pending_retry (db : DB) (now : Nat) (limit : Nat := 10) : List DlqRow :=
  (db.dlq.filter (fun e =>
    e.retry_count < e.max_retries &&
      (match e.next_retry_at with
        | none => true
        | some t => t ≤ now))).take limit

/-- `DLQService.mark_retry_attempt`.  The entry is looked up by id;
when found, `retry_count` is incremented and `last_attempt_at` stamped
unconditionally.  On success the entry is deleted; on failure a next
retry is scheduled only while `retry_count < max_retries` (the delay
coming from `next_retry_delay_minutes` or from the service's default
`ExponentialBackoff`), and `error_message` is replaced only by a
non-falsy value (`error_message or dlq_entry.error_message`); past the
ceiling the incremented entry is left in place for manual handling. -/
def mark_retry_attempt (db : DB) (now : Nat) (jitter_factor : ℚ) (dlq_id : Nat)
    (success : Bool) (error_message : Option String := none)
    (next_retry_delay_minutes : Option Nat := none) : Except Unit DB :=
  match scalarOneOrNone (db.dlq.filter (fun e => e.id == dlq_id)) with
  | .error e => .error e
  | .ok none => .ok db
  | .ok (some entry) =>
    let entry := { entry with retry_count := entry.retry_count + 1,
                              last_attempt_at := some now }
    if success then
      .ok { db with dlq := db.dlq.filter (fun x => !(x.id == dlq_id)) }
    else
      if entry.retry_count < entry.max_retries then
        let delay : Nat :=
          match next_retry_delay_minutes with
          | some d => d
          | none => (calculate_delay {} jitter_factor (entry.retry_count : Int)).toNat
        let entry := { entry with
          next_retry_at := some (now + delay),
          error_message :=
            match error_message with
            | some s => if s == "" then entry.error_message else s
            | none => entry.error_message }
        .ok { db with dlq := db.dlq.map (fun x => if x.id == dlq_id then entry else x) }
      else
        .ok { db with dlq := db.dlq.map (fun x => if x.id == dlq_id then entry else x) }

/-! ### Idempotency-ledger check (`retry_utils.py`) -/

/-- `is_operation_processed`: first the `llm_turns` table is consulted
by raw string equality on its (non-nullable) `operation_id` column —
for an absent id the comparison is SQL `IS NULL`, matching nothing.
Then `uuid.UUID(operation_id)` is attempted: a `None` id raises an
uncaught `TypeError` (modelled as `Except.error`), a non-UUID string
raises `ValueError`, which is caught and answered with `False`; with a
parsed UUID, `webhook_events` rows in status `processed` and
`job_queue` rows in status `completed` are consulted. -/
def is_operation_processed (db : DB) (operation_id : Option OpId) : Except Unit Bool :=
  match scalarOneOrNone (db.llmTurns.filter (fun t => some t.operation_id == operation_id)) with
  | .error e => .error e
  | .ok (some _) => .ok true
  | .ok none =>
    match operation_id with
    | none => .error ()
    | some (.invalid _) => .ok false
    | some (.validUUID u) =>
      match scalarOneOrNone (db.webhookEvents.filter (fun e =>
          e.operation_id == some u && e.status == "processed")) with
      | .error e => .error e
      | .ok (some _) => .ok true
      | .ok none =>
        match scalarOneOrNone (db.jobQueue.filter (fun j =>
            j.operation_id == some u && j.status == "completed")) with
        | .error e => .error e
        | .ok r => .ok r.isSome

/-- `process_job` (`retry_utils.py`): skip when the ledger reports the
operation processed, otherwise run the (stubbed, side-effect-free)
`execute_job`.  The returned boolean records whether the job body was
executed. -/
def process_job (db : DB) (operation_id : Option OpId) : Except Unit Bool :=
  match is_operation_processed db operation_id with
  | .error e => .error e
  | .ok true => .ok false
  | .ok false => .ok true

/-! ### Webhook events service (`webhook_events.py`) -/

/-- `WebhookEventsService._get_event_by_operation_id`: select by
`(workspace_id, operation_id)` — with no status filter, unlike the
job-queue lookup. -/
def getEventByOperationId (db : DB) (workspace_id : Nat) (operation_id : Nat) :
    Except Unit (Option EventRow) :=
  scalarOneOrNone (db.webhookEvents.filter (fun e =>
    e.workspace_id == workspace_id && e.operation_id == some operation_id))

/-- `WebhookEventsService._mark_event_processed`: select by id and, when
found, set status `processed` with a timestamp. -/
def markEventProcessed (db : DB) (now : Nat) (event_id : Nat) : Except Unit DB :=
  match scalarOneOrNone (db.webhookEvents.filter (fun e => e.id == event_id)) with
  | .error e => .error e
  | .ok none => .ok db
  | .ok (some _) =>
    .ok { db with webhookEvents := db.webhookEvents.map (fun e =>
      if e.id == event_id then { e with status := "processed", processed_at := some now }
      else e) }

/-- `WebhookEventsService.process_webhook_event`: when `operation_id`
is given and a row with that `(workspace_id, operation_id)` exists —
whatever its status — return it and do nothing else; otherwise insert
a `processing` row, run the (stubbed, always succeeding) handler, mark
the row `processed` and return it.  The returned row reflects the
in-session mutation done by `_mark_event_processed`. -/
def process_webhook_event (db : DB) (newId now : Nat) (workspace_id : Nat)
    (operation_id : Option Nat) (event_type : String) (external_id : Option String)
    (payload : Nat) : Except Unit (EventRow × DB) :=
  let found : Except Unit (Option EventRow) :=
    match operation_id with
    | some op => getEventByOperationId db workspace_id op
    | none => .ok none
  match found with
  | .error e => .error e
  | .ok (some existing) => .ok (existing, db)
  | .ok none =>
    let ev : EventRow :=
      { id := newId, workspace_id := workspace_id, operation_id := operation_id,
        event_type := event_type, external_id := external_id, payload := payload,
        status := "processing", attempts := 0, created_at := now }
    let db1 : DB := { db with webhookEvents := db.webhookEvents ++ [ev] }
    match markEventProcessed db1 now newId with
    | .error e => .error e
    | .ok db2 => .ok ({ ev with status := "processed", processed_at := some now }, db2)

/-! ### One iteration of `JobQueueService.process_pending_jobs` -/

/-- The loop body of `process_pending_jobs` for one selected job `j`:
mark it started, run `_process_job`; on success mark it completed; on
exception mark it failed, bump the in-memory `attempts` counter, and
when the ceiling is reached copy the job to the DLQ (`newDlqId` being
the generated id of that copy) and mark it `dlq_sent` — otherwise the
retry branch is an unimplemented `pass`. -/
def handleJob (db : DB) (now newDlqId : Nat) (j : JobRow) : DB :=
  let db := markJobStarted db now j.id
  match processJobType j with
  | .ok () => markJobCompleted db now j.id
  | .error e =>
    let db := markJobFailed db now j.id e
    let attempts := j.attempts + 1
    if j.max_attempts ≤ attempts then
      let db := (add_to_dlq db newDlqId now j.workspace_id j.operation_id
        ("job_" ++ j.job_type ++ "_failed") j.payload
        ("Job failed after " ++ toString attempts ++ " attempts: " ++ e)
        (some "JOB_PROCESSING_ERROR") (some "job_queue") (some j.id)
        attempts j.max_attempts).2
      markJobDlqSent db j.id
    else
      db

/-! ### Two workers running `process_pending_jobs` concurrently

Each call to `process_pending_jobs` is a sequence of database
round-trips: one `SELECT` of the pending batch, then per job an
`UPDATE` to `processing`, the handler invocation, and a final
`UPDATE`.  Nothing in the code locks the selected rows
(`_get_pending_jobs` has no row lock and `_mark_job_started` checks
only the id), so two workers interleave at round-trip granularity. -/

/-- Continuation of one worker inside `process_pending_jobs`. -/
inductive WorkerCode where
  | beforeRead
  | claimNext (todo : List JobRow)
  | processCur (j : JobRow) (rest : List JobRow)
  | completeCur (j : JobRow) (rest : List JobRow)
  | finished
deriving DecidableEq, Repr

/-- Two workers sharing one database.  `invoked` logs each handler
invocation as (worker, job id); `nextId` feeds generated DLQ ids. -/
structure Sys where
  db : DB
  invoked : List (Bool × Nat) := []
  nextId : Nat
  now : Nat := 0
  w1 : WorkerCode := .beforeRead
  w2 : WorkerCode := .beforeRead
deriving DecidableEq, Repr

/-- One database round-trip of one worker: the batch `SELECT`, the
claim `UPDATE`, the handler invocation (logged in `invoked`; on
exception the whole failure branch of the loop body runs), or the
completion `UPDATE`. -/
def workerStep (c : WorkerCode) (db : DB) (invoked : List (Bool × Nat))
    (nextId now : Nat) (which : Bool) :
    WorkerCode × DB × List (Bool × Nat) × Nat :=
  match c with
  | .beforeRead => (.claimNext (getPendingJobs db 10), db, invoked, nextId)
  | .claimNext [] => (.finished, db, invoked, nextId)
  | .claimNext (j :: rest) => (.processCur j rest, markJobStarted db now j.id, invoked, nextId)
  | .processCur j rest =>
    match processJobType j with
    | .ok () => (.completeCur j rest, db, invoked ++ [(which, j.id)], nextId)
    | .error e =>
      let db := markJobFailed db now j.id e
      let attempts := j.attempts + 1
      if j.max_attempts ≤ attempts then
        let db := (add_to_dlq db nextId now j.workspace_id j.operation_id
          ("job_" ++ j.job_type ++ "_failed") j.payload
          ("Job failed after " ++ toString attempts ++ " attempts: " ++ e)
          (some "JOB_PROCESSING_ERROR") (some "job_queue") (some j.id)
          attempts j.max_attempts).2
        (.claimNext rest, markJobDlqSent db j.id, invoked, nextId + 1)
      else
        (.claimNext rest, db, invoked, nextId)
  | .completeCur j rest => (.claimNext rest, markJobCompleted db now j.id, invoked, nextId)
  | .finished => (.finished, db, invoked, nextId)

/-- Schedule one step of the chosen worker. -/
def sysStep (which : Bool) (s : Sys) : Sys :=
  if which then
    let (c, db, inv, nid) := workerStep s.w1 s.db s.invoked s.nextId s.now true
    { s with w1 := c, db := db, invoked := inv, nextId := nid, now := s.now + 1 }
  else
    let (c, db, inv, nid) := workerStep s.w2 s.db s.invoked s.nextId s.now false
    { s with w2 := c, db := db, invoked := inv, nextId := nid, now := s.now + 1 }

/-- Run a schedule (a list of worker choices) from a start state. -/
def runSched (sched : List Bool) (s : Sys) : Sys :=
  sched.foldl (fun s b => sysStep b s) s

end Conversations


namespace Conversations

/-! ### Helper notions and lemmas -/

/-- The dedupe key of a `job_queue` row: its `(workspace_id, operation_id)`
pair matches the given tenant and operation. -/
def jobKey (w op : Nat) (j : JobRow) : Bool :=
  j.workspace_id == w && j.operation_id == some op

theorem mem_insertJob {x j : JobRow} {l : List JobRow} :
    x ∈ insertJob j l ↔ x = j ∨ x ∈ l := by
  induction l with
  | nil => simp [insertJob]
  | cons a t ih =>
    by_cases h : jobOrder j a = true
    · simp [insertJob, h]
    · simp only [insertJob, h, if_neg]
      simp [ih]
      tauto

theorem mem_sortJobs {x : JobRow} {l : List JobRow} :
    x ∈ sortJobs l ↔ x ∈ l := by
  induction l with
  | nil => simp [sortJobs]
  | cons a t ih => simp [sortJobs, mem_insertJob, ih]

theorem mem_getPendingJobs {x : JobRow} {db : DB} {limit : Nat}
    (h : x ∈ getPendingJobs db limit) :
    x ∈ db.jobQueue ∧ x.status = "pending" := by
  have hx : x ∈ sortJobs (db.jobQueue.filter (fun j => j.status == "pending")) :=
    List.take_subset _ _ h
  have hx' := mem_sortJobs.mp hx
  have := List.mem_filter.mp hx'
  exact ⟨this.1, by simpa using this.2⟩

end Conversations

namespace Conversations

/-- C1: Idempotent enqueue.  For a tenant `w` and non-null operation id
`op`, in a session whose `job_queue` holds at most one row for that key
and whose key rows are all in an active status (the uniqueness-index
discipline of the design), two successive `enqueue_job` calls with
identical arguments return one and the same entry, the second call
leaves the storage unchanged, and at most one `job_queue` row for the
key exists afterwards. -/
theorem enqueue_job_idempotent
    (db : DB) (w op : Nat) (jt : String) (p : Nat) (pr : Int) (ma : Nat)
    (id1 now1 id2 now2 : Nat)
    (huniq : (db.jobQueue.filter (jobKey w op)).length ≤ 1)
    (hact : ∀ j ∈ db.jobQueue, jobKey w op j = true →
      activeJobStatuses.contains j.status = true) :
    ∃ j1 db1,
      enqueue_job db id1 now1 w (some op) jt p pr ma = .ok (j1, db1) ∧
      enqueue_job db1 id2 now2 w (some op) jt p pr ma = .ok (j1, db1) ∧
      (db1.jobQueue.filter (jobKey w op)).length ≤ 1 := by
  have hfe : db.jobQueue.filter (fun j =>
      j.workspace_id == w && j.operation_id == some op &&
        activeJobStatuses.contains j.status) = db.jobQueue.filter (jobKey w op) := by
    apply List.filter_congr
    intro x hx
    by_cases hk : jobKey w op x = true
    · have hc := hact x hx hk
      unfold jobKey at hk ⊢
      rw [hk, hc]
      rfl
    · have hk' : jobKey w op x = false := by simpa using hk
      unfold jobKey at hk' ⊢
      rw [hk']
      simp
  cases hl : db.jobQueue.filter (jobKey w op) with
  | nil =>
    have h1 : getJobByOperationId db w op = .ok none := by
      unfold getJobByOperationId
      rw [hfe, hl]
      rfl
    refine ⟨newJob id1 now1 w (some op) jt p pr ma,
      { db with jobQueue := db.jobQueue ++ [newJob id1 now1 w (some op) jt p pr ma] },
      ?_, ?_, ?_⟩
    · simp [enqueue_job, h1]
    · have h2 : getJobByOperationId
          { db with jobQueue := db.jobQueue ++ [newJob id1 now1 w (some op) jt p pr ma] }
          w op = .ok (some (newJob id1 now1 w (some op) jt p pr ma)) := by
        unfold getJobByOperationId
        rw [List.filter_append, hfe, hl]
        simp [newJob, scalarOneOrNone, activeJobStatuses]
      simp [enqueue_job, h2]
    · rw [List.filter_append, hl]
      simp [jobKey, newJob]
  | cons y t =>
    rw [hl] at huniq
    have ht : t = [] := by
      cases t with
      | nil => rfl
      | cons a s => simp at huniq
    subst ht
    have h1 : getJobByOperationId db w op = .ok (some y) := by
      unfold getJobByOperationId
      rw [hfe, hl]
      rfl
    refine ⟨y, db, ?_, ?_, ?_⟩
    · simp [enqueue_job, h1]
    · simp [enqueue_job, h1]
    · rw [hl]
      simp

/-- Witness for `enqueue_job_idempotent`: concrete instance on an empty
session, tenant 1, operation 5. -/
theorem enqueue_job_idempotent_witness :
    ∃ j1 db1,
      enqueue_job {} 11 0 1 (some 5) "send_email" 0 0 3 = .ok (j1, db1) ∧
      enqueue_job db1 12 1 1 (some 5) "send_email" 0 0 3 = .ok (j1, db1) ∧
      (db1.jobQueue.filter (jobKey 1 5)).length ≤ 1 :=
  enqueue_job_idempotent {} 1 5 "send_email" 0 0 3 11 0 12 1 (by decide) (by decide)

end Conversations

namespace Conversations

/-- A `job_queue` row for tenant 1, operation 5, that has exhausted its
attempts and been sent to the Dead-Letter Store. -/
def dlqSentJob : JobRow :=
  { id := 1, workspace_id := 1, operation_id := some 5, job_type := "send_email",
    payload := 0, priority := 0, attempts := 3, max_attempts := 3,
    status := "dlq_sent", created_at := 0 }

/-- Storage holding only that `dlq_sent` row. -/
def dbAfterDlq : DB := { jobQueue := [dlqSentJob] }

/-- C5 counterexample: with the `(tenant 1, operation 5)` job in status
`dlq_sent`, a subsequent `enqueue_job` for the same key does NOT return
the original entry: the dedupe lookup skips `failed`/`dlq_sent` rows,
so a fresh `pending` row with a new id is created next to the old one. -/
theorem enqueue_after_dlq_sent_cex :
    enqueue_job dbAfterDlq 99 7 1 (some 5) "send_email" 0 0 3 =
      .ok (newJob 99 7 1 (some 5) "send_email" 0 0 3,
        { dbAfterDlq with
            jobQueue := [dlqSentJob, newJob 99 7 1 (some 5) "send_email" 0 0 3] }) ∧
    (newJob 99 7 1 (some 5) "send_email" 0 0 3).id ≠ dlqSentJob.id := by
  decide

/-- C5 (amended): once every `job_queue` row for `(tenant, operation)`
is in a non-active status (`failed` or `dlq_sent`), a subsequent
`enqueue_job` with that key creates and returns a fresh `pending`
entry appended to storage — it does not return the original entry,
which is left in place untouched. -/
theorem enqueue_after_dlq_sent_creates_new
    (db : DB) (w op : Nat) (jt : String) (p : Nat) (pr : Int) (ma : Nat)
    (newId now : Nat)
    (h : ∀ j ∈ db.jobQueue, jobKey w op j = true →
      activeJobStatuses.contains j.status = false) :
    enqueue_job db newId now w (some op) jt p pr ma =
      .ok (newJob newId now w (some op) jt p pr ma,
        { db with jobQueue := db.jobQueue ++ [newJob newId now w (some op) jt p pr ma] }) := by
  have hfe : db.jobQueue.filter (fun j =>
      j.workspace_id == w && j.operation_id == some op &&
        activeJobStatuses.contains j.status) = [] := by
    rw [List.filter_eq_nil_iff]
    intro x hx
    by_cases hk : jobKey w op x = true
    · have hc := h x hx hk
      unfold jobKey at hk
      rw [hk, hc]
      simp
    · have hk' : jobKey w op x = false := by simpa using hk
      unfold jobKey at hk'
      rw [hk']
      simp
  have h1 : getJobByOperationId db w op = .ok none := by
    unfold getJobByOperationId
    rw [hfe]
    rfl
  simp [enqueue_job, h1]

/-- Witness for `enqueue_after_dlq_sent_creates_new` on the concrete
`dlq_sent` storage. -/
theorem enqueue_after_dlq_sent_creates_new_witness :
    enqueue_job dbAfterDlq 42 9 1 (some 5) "send_email" 0 0 3 =
      .ok (newJob 42 9 1 (some 5) "send_email" 0 0 3,
        { dbAfterDlq with
            jobQueue := dbAfterDlq.jobQueue ++ [newJob 42 9 1 (some 5) "send_email" 0 0 3] }) :=
  enqueue_after_dlq_sent_creates_new dbAfterDlq 1 5 "send_email" 0 0 3 42 9 (by decide)

/-- A pending job whose type no handler knows, about to fail its first
of three attempts. -/
def failingJob : JobRow :=
  { id := 2, workspace_id := 1, operation_id := some 6, job_type := "send_email",
    payload := 0, priority := 0, attempts := 0, max_attempts := 3,
    status := "pending", created_at := 0 }

/-- Storage holding only that job. -/
def dbOneFailing : DB := { jobQueue := [failingJob] }

/-- C4 counterexample: after a fail with `attempts + 1 < max_attempts`
the job is indeed kept out of the DLQ and away from `dlq_sent`, but it
is left in status `failed`, and the pending-jobs claim query returns
nothing — the entry does NOT become eligible for a future claim. -/
theorem fail_below_max_not_claimable_cex :
    failingJob.attempts + 1 < failingJob.max_attempts ∧
    (handleJob dbOneFailing 4 50 failingJob).dlq = [] ∧
    ((handleJob dbOneFailing 4 50 failingJob).jobQueue.map (fun j => j.status)) = ["failed"] ∧
    getPendingJobs (handleJob dbOneFailing 4 50 failingJob) 10 = [] := by
  decide

/-- C4 (amended): when `_process_job` raises and the incremented
attempts count is still below `max_attempts`, the loop body leaves the
entry in status `failed` — it is not copied to the Dead-Letter Store
and does not transition to `dlq_sent` — but `failed` rows are not
selected by the pending-jobs claim query, and no code path reschedules
them (the retry branch is an unimplemented placeholder), so the entry
does not become claimable again. -/
theorem fail_below_max_leaves_failed
    (db : DB) (now dlqId : Nat) (j : JobRow) (e : String)
    (hj : processJobType j = .error e)
    (hlt : j.attempts + 1 < j.max_attempts) :
    (handleJob db now dlqId j).dlq = db.dlq ∧
    (∀ x ∈ (handleJob db now dlqId j).jobQueue, x.id = j.id → x.status = "failed") ∧
    (∀ limit, ∀ x ∈ getPendingJobs (handleJob db now dlqId j) limit, x.id ≠ j.id) := by
  have hnle : ¬(j.max_attempts ≤ j.attempts + 1) := by omega
  have hdb : handleJob db now dlqId j = markJobFailed (markJobStarted db now j.id) now j.id e := by
    unfold handleJob
    rw [hj]
    simp [hnle]
  rw [hdb]
  have hmem : ∀ x ∈ (markJobFailed (markJobStarted db now j.id) now j.id e).jobQueue,
      x.id = j.id → x.status = "failed" := by
    intro x hx hid
    simp only [markJobFailed, markJobStarted, List.map_map] at hx
    obtain ⟨a, ha, hxa⟩ := List.mem_map.mp hx
    subst hxa
    by_cases h : (a.id == j.id) = true
    · simp [Function.comp, h]
    · have h2 : (a.id == j.id) = false := by simpa using h
      have h3 : a.id = j.id := by
        simpa [Function.comp, h2] using hid
      rw [h3] at h2
      simp at h2
  refine ⟨rfl, hmem, ?_⟩
  intro limit x hx hid
  have h1 := mem_getPendingJobs hx
  have h2 := hmem x h1.1 hid
  rw [h2] at h1
  exact absurd h1.2 (by decide)

/-- Witness for `fail_below_max_leaves_failed` on the concrete failing
job. -/
theorem fail_below_max_leaves_failed_witness :
    (handleJob dbOneFailing 4 50 failingJob).dlq = dbOneFailing.dlq ∧
    (∀ x ∈ (handleJob dbOneFailing 4 50 failingJob).jobQueue,
      x.id = failingJob.id → x.status = "failed") ∧
    (∀ limit, ∀ x ∈ getPendingJobs (handleJob dbOneFailing 4 50 failingJob) limit,
      x.id ≠ failingJob.id) :=
  fail_below_max_leaves_failed dbOneFailing 4 50 failingJob
    "Unknown job type: send_email" (by decide) (by decide)

end Conversations

namespace Conversations

theorem mem_of_filter_eq_single {α : Type} {p : α → Bool} {l : List α} {y : α}
    (h : l.filter p = [y]) : y ∈ l ∧ p y = true := by
  have hy : y ∈ l.filter p := by
    rw [h]
    exact List.mem_cons_self _ _
  exact ⟨(List.mem_filter.mp hy).1, (List.mem_filter.mp hy).2⟩

theorem mem_map_replace {α : Type} {l : List α} {q : α → Prop} [DecidablePred q]
    {e x : α} (hx : x ∈ l.map (fun a => if q a then e else a)) : x = e ∨ x ∈ l := by
  obtain ⟨a, ha, hxa⟩ := List.mem_map.mp hx
  by_cases h : q a
  · left
    rw [← hxa]
    simp [h]
  · right
    rw [← hxa]
    simp [h]
    exact ha

/-- A dead-letter entry that has already consumed all of its retries
(`retry_count = max_retries = 3`). -/
def exhaustedDlq : DlqRow :=
  { id := 1, workspace_id := 1, operation_id := some 5,
    original_table := some "job_queue", original_id := some 1,
    event_type := "job_send_email_failed", payload := 0,
    error_message := "boom", retry_count := 3, max_retries := 3, created_at := 0 }

/-- A dead-letter store holding only that exhausted entry. -/
def dbExhausted : DB := { dlq := [exhaustedDlq] }

/-- C2 counterexample: `mark_retry_attempt` increments `retry_count`
unconditionally, so applied (with failure) to an entry whose
`retry_count` already equals `max_retries` it leaves the entry at
`retry_count = max_retries + 1`, violating `retry_count ≤ max_retries`. -/
theorem mark_retry_attempt_exceeds_max_cex :
    ∃ db', mark_retry_attempt dbExhausted 10 1 1 false none none = .ok db' ∧
      ∃ x ∈ db'.dlq, x.max_retries < x.retry_count := by
  refine ⟨_, rfl, ?_⟩
  decide

/-- C2 (amended): the dead-letter invariant `retry_count ≤ max_retries`
is preserved by `mark_retry_attempt` only under the discipline that the
targeted entry still has `retry_count < max_retries` (as entries
returned by `get_pending_retry` do), and by `add_to_dlq` when invoked
with `retry_count ≤ max_retries`; on an entry already at the ceiling,
`mark_retry_attempt` increments past it. -/
theorem dlq_retry_bound_invariant
    (db : DB) (now : Nat) (jf : ℚ) (i : Nat) (succ : Bool) (em : Option String)
    (d : Option Nat) (db' : DB)
    (hinv : ∀ x ∈ db.dlq, x.retry_count ≤ x.max_retries)
    (hstrict : ∀ x ∈ db.dlq, x.id = i → x.retry_count < x.max_retries)
    (h : mark_retry_attempt db now jf i succ em d = .ok db') :
    (∀ x ∈ db'.dlq, x.retry_count ≤ x.max_retries) ∧
    (∀ (db2 : DB) (newId now2 w : Nat) (op : Option Nat) (et : String) (p : Nat)
      (msg : String) (ec ot : Option String) (oi : Option Nat) (rc mr : Nat),
      (∀ y ∈ db2.dlq, y.retry_count ≤ y.max_retries) → rc ≤ mr →
      ∀ x ∈ (add_to_dlq db2 newId now2 w op et p msg ec ot oi rc mr).2.dlq,
        x.retry_count ≤ x.max_retries) := by
  constructor
  · unfold mark_retry_attempt at h
    cases hfl : db.dlq.filter (fun e => e.id == i) with
    | nil =>
      rw [hfl] at h
      simp [scalarOneOrNone] at h
      subst h
      exact hinv
    | cons y t =>
      cases t with
      | cons a s =>
        rw [hfl] at h
        simp [scalarOneOrNone] at h
      | nil =>
        rw [hfl] at h
        have hy := mem_of_filter_eq_single hfl
        have hyid : y.id = i := by simpa using hy.2
        have hrc : y.retry_count < y.max_retries := hstrict y hy.1 hyid
        cases succ with
        | true =>
          simp [scalarOneOrNone] at h
          subst h
          intro x hx
          exact hinv x (List.mem_filter.mp hx).1
        | false =>
          by_cases hb : y.retry_count + 1 < y.max_retries
          · simp [scalarOneOrNone, hb] at h
            subst h
            intro x hx
            rcases mem_map_replace hx with hxe | hxm
            · subst hxe
              simp
              omega
            · exact hinv x hxm
          · simp [scalarOneOrNone, hb] at h
            subst h
            intro x hx
            rcases mem_map_replace hx with hxe | hxm
            · subst hxe
              simp
              omega
            · exact hinv x hxm
  · intro db2 newId now2 w op et p msg ec ot oi rc mr hinv2 hrc x hx
    simp only [add_to_dlq, List.mem_append] at hx
    rcases hx with hx | hx
    · exact hinv2 x hx
    · simp at hx
      subst hx
      exact hrc

/-- A dead-letter entry one failed attempt away from the ceiling. -/
def oneAwayDlq : DlqRow := { exhaustedDlq with retry_count := 2 }

/-- Storage holding only that entry. -/
def dbOneAway : DB := { dlq := [oneAwayDlq] }

/-- The storage after marking that entry's last failure. -/
def dbOneAwayAfter : DB :=
  { dlq := [{ oneAwayDlq with retry_count := 3, last_attempt_at := some 10 }] }

/-- Witness for `dlq_retry_bound_invariant`: an entry one failure away
from the ceiling is marked failed and the bound still holds. -/
theorem dlq_retry_bound_invariant_witness :
    (∀ x ∈ dbOneAwayAfter.dlq, x.retry_count ≤ x.max_retries) ∧
    (∀ (db2 : DB) (newId now2 w : Nat) (op : Option Nat) (et : String) (p : Nat)
      (msg : String) (ec ot : Option String) (oi : Option Nat) (rc mr : Nat),
      (∀ y ∈ db2.dlq, y.retry_count ≤ y.max_retries) → rc ≤ mr →
      ∀ x ∈ (add_to_dlq db2 newId now2 w op et p msg ec ot oi rc mr).2.dlq,
        x.retry_count ≤ x.max_retries) :=
  dlq_retry_bound_invariant dbOneAway 10 1 1 false none none dbOneAwayAfter
    (by decide) (by decide) (by decide)

end Conversations

namespace Conversations

/-- Mutating operations of the dead-letter store (`get_pending_retry`
is a pure read and leaves the store unchanged). -/
inductive DlqOp where
  | mark (now : Nat) (jf : ℚ) (dlq_id : Nat) (success : Bool)
      (error_message : Option String) (next_retry_delay_minutes : Option Nat)
  | add (newId now workspace_id : Nat) (operation_id : Option Nat)
      (event_type : String) (payload : Nat) (error_message : String)
      (error_code : Option String) (original_table : Option String)
      (original_id : Option Nat) (retry_count max_retries : Nat)
deriving DecidableEq

/-- Apply a dead-letter-store operation to the storage. -/
def applyDlqOp (db : DB) : DlqOp → Except Unit DB
  | .mark now jf i succ em d => mark_retry_attempt db now jf i succ em d
  | .add newId now w op et p msg ec ot oi rc mr =>
      .ok (add_to_dlq db newId now w op et p msg ec ot oi rc mr).2

/-- Freshness of the generated id of an insert (`uuid.uuid4()` does not
collide with an existing row). -/
def opFresh (op : DlqOp) (db : DB) : Prop :=
  match op with
  | .mark _ _ _ _ _ _ => True
  | .add newId _ _ _ _ _ _ _ _ _ _ _ => ∀ x ∈ db.dlq, x.id ≠ newId

/-- `k` successive failed `mark_retry_attempt` calls on entry `i`. -/
def iterFailN (i now : Nat) (jf : ℚ) : Nat → DB → Except Unit DB
  | 0, db => .ok db
  | k + 1, db =>
    match mark_retry_attempt db now jf i false none none with
    | .error e => .error e
    | .ok db1 => iterFailN i now jf k db1

theorem filter_id_map_replace (l : List DlqRow) (i : Nat) (e : DlqRow)
    (he : e.id = i) :
    (l.map (fun x => if x.id == i then e else x)).filter (fun x => x.id == i)
      = (l.filter (fun x => x.id == i)).map (fun _ => e) := by
  induction l with
  | nil => rfl
  | cons a t ih =>
    by_cases h : (a.id == i) = true
    · have hei : (e.id == i) = true := by
        rw [he]
        exact beq_self_eq_true i
      rw [List.map_cons, if_pos h,
        List.filter_cons_of_pos (p := fun x : DlqRow => x.id == i) hei,
        List.filter_cons_of_pos (p := fun x : DlqRow => x.id == i) h, List.map_cons, ih]
    · rw [List.map_cons, if_neg h,
        List.filter_cons_of_neg (p := fun x : DlqRow => x.id == i) h,
        List.filter_cons_of_neg (p := fun x : DlqRow => x.id == i) h, ih]

theorem filter_replace (i : Nat) (e : DlqRow) (l : List DlqRow) (y : DlqRow)
    (he : e.id = i) (hfl : l.filter (fun x => x.id == i) = [y]) :
    (l.map (fun x => if x.id == i then e else x)).filter (fun x => x.id == i)
      = [e] := by
  rw [filter_id_map_replace l i e he, hfl]
  rfl

theorem mark_fail_step (db : DB) (now : Nat) (jf : ℚ) (i : Nat)
    (em : Option String) (d : Option Nat) (y : DlqRow)
    (hfl : db.dlq.filter (fun x => x.id == i) = [y]) :
    ∃ db' y', mark_retry_attempt db now jf i false em d = .ok db' ∧
      db'.dlq.filter (fun x => x.id == i) = [y'] ∧
      y'.retry_count = y.retry_count + 1 ∧ y'.max_retries = y.max_retries := by
  have hyid : y.id = i := by simpa using (mem_of_filter_eq_single hfl).2
  unfold mark_retry_attempt
  rw [hfl]
  by_cases hb : y.retry_count + 1 < y.max_retries
  · simp only [scalarOneOrNone, Bool.false_eq_true, if_false, hb, if_true]
    exact ⟨_, _, rfl, filter_replace i _ db.dlq y hyid hfl, rfl, rfl⟩
  · simp only [scalarOneOrNone, Bool.false_eq_true, if_false, hb]
    exact ⟨_, _, rfl, filter_replace i _ db.dlq y hyid hfl, rfl, rfl⟩

theorem iterFailN_spec (i now : Nat) (jf : ℚ) :
    ∀ (k : Nat) (db : DB) (y : DlqRow),
      db.dlq.filter (fun x => x.id == i) = [y] →
      ∃ db' y', iterFailN i now jf k db = .ok db' ∧
        db'.dlq.filter (fun x => x.id == i) = [y'] ∧
        y'.retry_count = y.retry_count + k ∧ y'.max_retries = y.max_retries := by
  intro k
  induction k with
  | zero => exact fun db y hfl => ⟨db, y, rfl, hfl, rfl, rfl⟩
  | succ k ih =>
    intro db y hfl
    obtain ⟨db1, y1, hstep, hfl1, hrc1, hmr1⟩ := mark_fail_step db now jf i none none y hfl
    obtain ⟨db', y', hiter, hfl', hrc', hmr'⟩ := ih db1 y1 hfl1
    refine ⟨db', y', ?_, hfl', by omega, by omega⟩
    unfold iterFailN
    rw [hstep]
    exact hiter

end Conversations

namespace Conversations

/-- C7: Retry exhaustion is terminal.  An entry that fails exactly
`max_retries` times (starting from `retry_count = 0`) reaches
`retry_count = max_retries`; any entry at or past the ceiling is absent
from every `get_pending_retry` result, and no dead-letter-store
operation reschedules it: its `next_retry_at` is never set again and
its `retry_count` never decreases (id lookups assume the primary key is
unique and inserted ids fresh). -/
theorem retry_exhaustion_terminal
    (db : DB) (i now : Nat) (jf : ℚ) (y : DlqRow)
    (hfl : db.dlq.filter (fun x => x.id == i) = [y])
    (h0 : y.retry_count = 0) :
    ∃ db' y', iterFailN i now jf y.max_retries db = .ok db' ∧
      db'.dlq.filter (fun x => x.id == i) = [y'] ∧
      y'.retry_count = y'.max_retries ∧
      (∀ (db2 : DB) (now2 lim : Nat) (e2 : DlqRow), e2 ∈ db2.dlq →
        e2.max_retries ≤ e2.retry_count → e2 ∉ get_pending_retry db2 now2 lim) ∧
      (∀ (db2 db3 : DB) (op : DlqOp) (e2 : DlqRow), e2 ∈ db2.dlq →
        e2.max_retries ≤ e2.retry_count →
        (∀ x ∈ db2.dlq, x.id = e2.id → x = e2) →
        opFresh op db2 → applyDlqOp db2 op = .ok db3 →
        ∀ e3 ∈ db3.dlq, e3.id = e2.id →
          e2.retry_count ≤ e3.retry_count ∧ e3.max_retries ≤ e3.retry_count ∧
          e3.next_retry_at = e2.next_retry_at) := by
  obtain ⟨db', y', hiter, hfl', hrc', hmr'⟩ :=
    iterFailN_spec i now jf y.max_retries db y hfl
  refine ⟨db', y', hiter, hfl', by omega, ?_, ?_⟩
  · intro db2 now2 lim e2 hmem hterm hcontra
    unfold get_pending_retry at hcontra
    have h1 := List.take_subset _ _ hcontra
    have h2 := (List.mem_filter.mp h1).2
    simp only [Bool.and_eq_true, decide_eq_true_eq] at h2
    omega
  · intro db2 db3 op e2 hmem hterm huniq2 hfresh happ e3 hmem3 hid3
    cases op with
    | add nid n2 w op2 et p2 msg ec ot oi rc mr =>
      simp only [applyDlqOp] at happ
      injection happ with happ
      subst happ
      simp only [add_to_dlq, List.mem_append] at hmem3
      rcases hmem3 with hmm | hnew
      · rcases huniq2 e3 hmm hid3 with rfl
        exact ⟨le_refl _, hterm, rfl⟩
      · simp at hnew
        have hnid : e3.id = nid := by rw [hnew]
        exact absurd (by rw [← hid3, hnid]) (hfresh e2 hmem)
    | mark n2 jf2 i2 succ2 em2 d2 =>
      simp only [applyDlqOp] at happ
      unfold mark_retry_attempt at happ
      cases hfl2 : db2.dlq.filter (fun x => x.id == i2) with
      | nil =>
        rw [hfl2] at happ
        simp [scalarOneOrNone] at happ
        subst happ
        rcases huniq2 e3 hmem3 hid3 with rfl
        exact ⟨le_refl _, hterm, rfl⟩
      | cons y2 t2 =>
        cases t2 with
        | cons a s =>
          rw [hfl2] at happ
          simp [scalarOneOrNone] at happ
        | nil =>
          have hy2 := mem_of_filter_eq_single hfl2
          have hy2id : y2.id = i2 := by simpa using hy2.2
          rw [hfl2] at happ
          cases succ2 with
          | true =>
            simp [scalarOneOrNone] at happ
            subst happ
            have := (List.mem_filter.mp hmem3).1
            rcases huniq2 e3 this hid3 with rfl
            exact ⟨le_refl _, hterm, rfl⟩
          | false =>
            by_cases hb : y2.retry_count + 1 < y2.max_retries
            · simp only [scalarOneOrNone, Bool.false_eq_true, if_false, hb,
                if_true] at happ
              injection happ with happ
              subst happ
              rcases mem_map_replace hmem3 with he3 | hmm
              · have he3id : e3.id = y2.id := by rw [he3]
                have : y2 = e2 := huniq2 y2 hy2.1 (by rw [← he3id]; exact hid3)
                subst this
                omega
              · rcases huniq2 e3 hmm hid3 with rfl
                exact ⟨le_refl _, hterm, rfl⟩
            · simp only [scalarOneOrNone, Bool.false_eq_true, if_false, hb] at happ
              injection happ with happ
              subst happ
              rcases mem_map_replace hmem3 with he3 | hmm
              · have he3id : e3.id = y2.id := by rw [he3]
                have hy2e2 : y2 = e2 := huniq2 y2 hy2.1 (by rw [← he3id]; exact hid3)
                subst hy2e2
                refine ⟨?_, ?_, ?_⟩
                · rw [he3]
                  simp
                · rw [he3]
                  simp
                  omega
                · rw [he3]
              · rcases huniq2 e3 hmm hid3 with rfl
                exact ⟨le_refl _, hterm, rfl⟩

/-- A dead-letter entry that has not yet been retried. -/
def freshDlq : DlqRow := { exhaustedDlq with retry_count := 0 }

/-- A dead-letter store holding only that fresh entry. -/
def dbFreshDlq : DB := { dlq := [freshDlq] }

/-- Witness for `retry_exhaustion_terminal` on the concrete fresh
entry. -/
theorem retry_exhaustion_terminal_witness :
    ∃ db' y', iterFailN 1 10 1 freshDlq.max_retries dbFreshDlq = .ok db' ∧
      db'.dlq.filter (fun x => x.id == 1) = [y'] ∧
      y'.retry_count = y'.max_retries ∧
      (∀ (db2 : DB) (now2 lim : Nat) (e2 : DlqRow), e2 ∈ db2.dlq →
        e2.max_retries ≤ e2.retry_count → e2 ∉ get_pending_retry db2 now2 lim) ∧
      (∀ (db2 db3 : DB) (op : DlqOp) (e2 : DlqRow), e2 ∈ db2.dlq →
        e2.max_retries ≤ e2.retry_count →
        (∀ x ∈ db2.dlq, x.id = e2.id → x = e2) →
        opFresh op db2 → applyDlqOp db2 op = .ok db3 →
        ∀ e3 ∈ db3.dlq, e3.id = e2.id →
          e2.retry_count ≤ e3.retry_count ∧ e3.max_retries ≤ e3.retry_count ∧
          e3.next_retry_at = e2.next_retry_at) :=
  retry_exhaustion_terminal dbFreshDlq 1 10 1 freshDlq (by decide) (by decide)

end Conversations

namespace Conversations

/-- Storage whose `llm_turns` ledger holds a row keyed by the non-UUID
string `op1`. -/
def dbTurnOnly : DB :=
  { llmTurns := [{ id := 1, operation_id := .invalid "op1", status := "success" }] }

/-- C3 counterexample: with an `llm_turns` row keyed by the non-UUID
string `op1`, the ledger check reports the operation as already
processed and `process_job` short-circuits without executing — the
operation does NOT always execute anew. -/
theorem invalid_opid_dedupes_cex :
    is_operation_processed dbTurnOnly (some (.invalid "op1")) = .ok true ∧
    process_job dbTurnOnly (some (.invalid "op1")) = .ok false := by
  decide

/-- C3 (amended): an operation id that is not a valid UUID is deduped
against the `llm_turns` ledger only: the check reports it processed
exactly when an `llm_turns` row with that string exists (it executes
anew only otherwise); an absent operation id makes the check raise
(`uuid.UUID(None)` raises an uncaught `TypeError`) rather than report
not-processed. -/
theorem invalid_opid_checks_llm_turns_only
    (db : DB) (s : String)
    (h : (db.llmTurns.filter
      (fun t => some t.operation_id == some (OpId.invalid s))).length ≤ 1) :
    (is_operation_processed db (some (.invalid s)) =
      .ok (!(db.llmTurns.filter
        (fun t => some t.operation_id == some (OpId.invalid s))).isEmpty)) ∧
    is_operation_processed db none = .error () := by
  constructor
  · unfold is_operation_processed
    cases hfl : db.llmTurns.filter
        (fun t => some t.operation_id == some (OpId.invalid s)) with
    | nil =>
      rfl
    | cons a t =>
      cases t with
      | nil =>
        rfl
      | cons b u =>
        rw [hfl] at h
        simp at h
  · unfold is_operation_processed
    have hfl : db.llmTurns.filter (fun t => some t.operation_id == none) = [] := by
      rw [List.filter_eq_nil_iff]
      intro x hx
      simp
    rw [hfl]
    rfl

/-- Witness for `invalid_opid_checks_llm_turns_only` on the concrete
one-row ledger. -/
theorem invalid_opid_checks_llm_turns_only_witness :
    (is_operation_processed dbTurnOnly (some (.invalid "nope")) =
      .ok (!(dbTurnOnly.llmTurns.filter
        (fun t => some t.operation_id == some (OpId.invalid "nope"))).isEmpty)) ∧
    is_operation_processed dbTurnOnly none = .error () :=
  invalid_opid_checks_llm_turns_only dbTurnOnly "nope" (by decide)

end Conversations

namespace Conversations

/-- A `completed` job belonging to tenant 2 with operation 7. -/
def tenantBJob : JobRow :=
  { id := 3, workspace_id := 2, operation_id := some 7, job_type := "send_email",
    payload := 0, priority := 0, attempts := 1, max_attempts := 3,
    status := "completed", created_at := 0 }

/-- Storage holding only tenant 2's completed job. -/
def dbTenantB : DB := { jobQueue := [tenantBJob] }

/-- C8 counterexample: seen from tenant 1, the storages `dbTenantB` and
the empty storage differ only in rows of another tenant (tenant 2),
yet the ledger check for `(tenant 1, operation 7)` answers `true` on
the former and `false` on the latter — the check is not tenant-scoped
(`is_operation_processed` takes no tenant and filters on no workspace
column). -/
theorem ledger_check_not_tenant_scoped_cex :
    is_operation_processed dbTenantB (some (.validUUID 7)) = .ok true ∧
    is_operation_processed {} (some (.validUUID 7)) = .ok false ∧
    (∀ j ∈ dbTenantB.jobQueue, j.workspace_id ≠ 1) ∧
    dbTenantB.webhookEvents = [] ∧ dbTenantB.dlq = [] ∧ dbTenantB.llmTurns = [] := by
  decide

/-- Renaming of every tenant column of the storage (the `llm_turns`
table has no tenant column at all). -/
def mapWorkspaces (f : Nat → Nat) (db : DB) : DB :=
  { jobQueue := db.jobQueue.map (fun j => { j with workspace_id := f j.workspace_id }),
    webhookEvents :=
      db.webhookEvents.map (fun e => { e with workspace_id := f e.workspace_id }),
    dlq := db.dlq.map (fun x => { x with workspace_id := f x.workspace_id }),
    llmTurns := db.llmTurns }

theorem filter_eventPred_map (u : Nat) (f : Nat → Nat) (l : List EventRow) :
    (l.map (fun e => { e with workspace_id := f e.workspace_id })).filter
      (fun e => e.operation_id == some u && e.status == "processed") =
    (l.filter (fun e => e.operation_id == some u && e.status == "processed")).map
      (fun e => { e with workspace_id := f e.workspace_id }) := by
  induction l with
  | nil => rfl
  | cons a t ih =>
    by_cases h : (a.operation_id == some u && a.status == "processed") = true
    · rw [List.map_cons,
        List.filter_cons_of_pos
          (p := fun e : EventRow => e.operation_id == some u && e.status == "processed")
          (a := { a with workspace_id := f a.workspace_id }) h,
        List.filter_cons_of_pos
          (p := fun e : EventRow => e.operation_id == some u && e.status == "processed") h,
        List.map_cons, ih]
    · rw [List.map_cons,
        List.filter_cons_of_neg
          (p := fun e : EventRow => e.operation_id == some u && e.status == "processed")
          (a := { a with workspace_id := f a.workspace_id }) h,
        List.filter_cons_of_neg
          (p := fun e : EventRow => e.operation_id == some u && e.status == "processed") h,
        ih]

theorem filter_jobPred_map (u : Nat) (f : Nat → Nat) (l : List JobRow) :
    (l.map (fun j => { j with workspace_id := f j.workspace_id })).filter
      (fun j => j.operation_id == some u && j.status == "completed") =
    (l.filter (fun j => j.operation_id == some u && j.status == "completed")).map
      (fun j => { j with workspace_id := f j.workspace_id }) := by
  induction l with
  | nil => rfl
  | cons a t ih =>
    by_cases h : (a.operation_id == some u && a.status == "completed") = true
    · rw [List.map_cons,
        List.filter_cons_of_pos
          (p := fun j : JobRow => j.operation_id == some u && j.status == "completed")
          (a := { a with workspace_id := f a.workspace_id }) h,
        List.filter_cons_of_pos
          (p := fun j : JobRow => j.operation_id == some u && j.status == "completed") h,
        List.map_cons, ih]
    · rw [List.map_cons,
        List.filter_cons_of_neg
          (p := fun j : JobRow => j.operation_id == some u && j.status == "completed")
          (a := { a with workspace_id := f a.workspace_id }) h,
        List.filter_cons_of_neg
          (p := fun j : JobRow => j.operation_id == some u && j.status == "completed") h,
        ih]

/-- C8 (amended): the ledger check is global across tenants — its
answer is invariant under any renaming of every tenant column, i.e. it
depends only on operation ids and statuses, never on which tenant owns
a row. -/
theorem is_operation_processed_ignores_workspace (f : Nat → Nat) (db : DB)
    (oid : Option OpId) :
    is_operation_processed (mapWorkspaces f db) oid = is_operation_processed db oid := by
  unfold is_operation_processed mapWorkspaces
  dsimp only
  cases hfl : db.llmTurns.filter (fun t => some t.operation_id == oid) with
  | cons a t =>
    cases t <;> rfl
  | nil =>
    cases oid with
    | none => rfl
    | some o =>
      cases o with
      | invalid s => rfl
      | validUUID u =>
        simp only [scalarOneOrNone]
        rw [filter_eventPred_map]
        cases hev : db.webhookEvents.filter
            (fun e => e.operation_id == some u && e.status == "processed") with
        | cons a t =>
          cases t <;> rfl
        | nil =>
          rw [filter_jobPred_map]
          cases hjob : db.jobQueue.filter
              (fun j => j.operation_id == some u && j.status == "completed") with
          | cons a t => cases t <;> rfl
          | nil => rfl

end Conversations

namespace Conversations

/-- The backoff configuration the DLQ service is constructed with
(`ExponentialBackoff()` — all defaults). -/
def defaultBackoff : ExponentialBackoff := {}

/-- C6 counterexample: with the default configuration, at `attempt = 2`
the clamped base value is `x = min(1 * 2^1, 1440) = 2`, yet with
jitter factor `0.76 ∈ [0.75, 1.25]` the returned delay is `1`, which
lies strictly below `0.75 * x = 1.5` — flooring pushes the output out
of the claimed `[0.75x, 1.25x]` interval. -/
theorem calculate_delay_below_jitter_band_cex :
    calculate_delay defaultBackoff (19/25) 2 = 1 ∧
    min ((1 : ℚ) * 2 ^ 1) 1440 = 2 ∧
    ((1 : ℚ) < 3/4 * 2) := by
  refine ⟨?_, by norm_num, by norm_num⟩
  norm_num [calculate_delay, defaultBackoff]

/-- C6 (amended): for `attempt ≤ 0` the delay is `0`; for `attempt ≥ 1`
and any jitter factor in `[0.75, 1.25]` (with jitter enabled and the
configuration at least one minute everywhere, as the defaults are), the
result equals `max 1 ⌊x·jf⌋` for `x = min(base·multiplier^(attempt-1),
max_delay)`, is never below 1, stays `≤ 1.25x`, and stays strictly
above `0.75x − 1` — but, due to flooring, not necessarily at or above
`0.75x` itself. -/
theorem calculate_delay_jitter_bounds
    (b : ExponentialBackoff) (jf : ℚ) (attempt : Int)
    (hj : b.jitter = true) (hbd : 1 ≤ b.base_delay_minutes)
    (hmd : 1 ≤ b.max_delay_minutes) (hmu : 1 ≤ b.multiplier)
    (ha : 1 ≤ attempt) (hjl : 3/4 ≤ jf) (hju : jf ≤ 5/4) :
    (∀ a : Int, a ≤ 0 → calculate_delay b jf a = 0) ∧
    calculate_delay b jf attempt =
      max 1 ⌊(min ((b.base_delay_minutes : ℚ) * b.multiplier ^ (attempt - 1).toNat)
        (b.max_delay_minutes : ℚ)) * jf⌋ ∧
    1 ≤ calculate_delay b jf attempt ∧
    ((calculate_delay b jf attempt : ℚ) ≤
      5/4 * min ((b.base_delay_minutes : ℚ) * b.multiplier ^ (attempt - 1).toNat)
        (b.max_delay_minutes : ℚ)) ∧
    (3/4 * min ((b.base_delay_minutes : ℚ) * b.multiplier ^ (attempt - 1).toNat)
        (b.max_delay_minutes : ℚ) - 1 < (calculate_delay b jf attempt : ℚ)) := by
  have hax : ¬(attempt ≤ 0) := by omega
  have hb1 : (1 : ℚ) ≤ (b.base_delay_minutes : ℚ) := by exact_mod_cast hbd
  have hm1 : (1 : ℚ) ≤ (b.max_delay_minutes : ℚ) := by exact_mod_cast hmd
  have hp1 : (1 : ℚ) ≤ b.multiplier ^ (attempt - 1).toNat := one_le_pow₀ hmu
  have hx1 : (1 : ℚ) ≤ min ((b.base_delay_minutes : ℚ) *
      b.multiplier ^ (attempt - 1).toNat) (b.max_delay_minutes : ℚ) := by
    apply le_min
    · nlinarith
    · exact hm1
  have hval : calculate_delay b jf attempt =
      max 1 ⌊(min ((b.base_delay_minutes : ℚ) * b.multiplier ^ (attempt - 1).toNat)
        (b.max_delay_minutes : ℚ)) * jf⌋ := by
    unfold calculate_delay
    rw [if_neg hax, hj]
    simp [Int.floor_intCast]
  refine ⟨?_, hval, ?_, ?_, ?_⟩
  · intro a haneg
    unfold calculate_delay
    rw [if_pos haneg]
  · rw [hval]
    exact le_max_left _ _
  · rw [hval]
    set x : ℚ := min ((b.base_delay_minutes : ℚ) *
      b.multiplier ^ (attempt - 1).toNat) (b.max_delay_minutes : ℚ) with hxdef
    have hx0 : (0 : ℚ) ≤ x := le_trans (by norm_num) hx1
    have hfle : ((⌊x * jf⌋ : ℤ) : ℚ) ≤ x * jf := Int.floor_le _
    have hmul : x * jf ≤ 5/4 * x := by nlinarith
    push_cast [Int.cast_max]
    apply max_le
    · nlinarith
    · linarith
  · rw [hval]
    set x : ℚ := min ((b.base_delay_minutes : ℚ) *
      b.multiplier ^ (attempt - 1).toNat) (b.max_delay_minutes : ℚ) with hxdef
    have hx0 : (0 : ℚ) ≤ x := le_trans (by norm_num) hx1
    have hflo : x * jf - 1 < ((⌊x * jf⌋ : ℤ) : ℚ) := Int.sub_one_lt_floor _
    have hmul : 3/4 * x ≤ x * jf := by nlinarith
    have hle : ((⌊x * jf⌋ : ℤ) : ℚ) ≤ ((max 1 ⌊x * jf⌋ : ℤ) : ℚ) := by
      exact_mod_cast le_max_right _ _
    linarith

/-- Witness for `calculate_delay_jitter_bounds`: the default
configuration at attempt 3 with jitter factor 1. -/
theorem calculate_delay_jitter_bounds_witness :
    (∀ a : Int, a ≤ 0 → calculate_delay defaultBackoff 1 a = 0) ∧
    calculate_delay defaultBackoff 1 3 =
      max 1 ⌊(min ((defaultBackoff.base_delay_minutes : ℚ) *
        defaultBackoff.multiplier ^ ((3 : Int) - 1).toNat)
        (defaultBackoff.max_delay_minutes : ℚ)) * 1⌋ ∧
    1 ≤ calculate_delay defaultBackoff 1 3 ∧
    ((calculate_delay defaultBackoff 1 3 : ℚ) ≤
      5/4 * min ((defaultBackoff.base_delay_minutes : ℚ) *
        defaultBackoff.multiplier ^ ((3 : Int) - 1).toNat)
        (defaultBackoff.max_delay_minutes : ℚ)) ∧
    (3/4 * min ((defaultBackoff.base_delay_minutes : ℚ) *
        defaultBackoff.multiplier ^ ((3 : Int) - 1).toNat)
        (defaultBackoff.max_delay_minutes : ℚ) - 1 <
      (calculate_delay defaultBackoff 1 3 : ℚ)) :=
  calculate_delay_jitter_bounds defaultBackoff 1 3 rfl (by norm_num [defaultBackoff])
    (by norm_num [defaultBackoff]) (by norm_num [defaultBackoff]) (by norm_num)
    (by norm_num) (by norm_num)

end Conversations

namespace Conversations

/-- A single pending job of the known `example_job` type. -/
def pendingExampleJob : JobRow :=
  { id := 1, workspace_id := 1, operation_id := some 5, job_type := "example_job",
    payload := 0, priority := 0, attempts := 0, max_attempts := 3,
    status := "pending", created_at := 0 }

/-- Two workers about to poll a queue holding that one pending job. -/
def twoWorkerStart : Sys :=
  { db := { jobQueue := [pendingExampleJob] }, nextId := 100 }

/-- C9: under the interleaving in which both workers run the batch
`SELECT` before either runs the claim `UPDATE` (nothing prevents it:
the select takes no lock and `_mark_job_started` checks only the id,
not `status = pending`), both workers claim job 1 and both invoke the
handler on it — the side effect happens twice, not once. -/
theorem double_claim_interleaving :
    (runSched [true, false, true, false, true, false] twoWorkerStart).invoked
      = [(true, 1), (false, 1)] ∧
    ((runSched [true, false, true, false, true, false] twoWorkerStart).invoked.countP
      (fun p => p.2 == 1)) = 2 ∧
    getPendingJobs twoWorkerStart.db 10 = [pendingExampleJob] := by
  decide

/-- An event for tenant 1, operation 8, that previously failed. -/
def failedEvent : EventRow :=
  { id := 4, workspace_id := 1, operation_id := some 8, event_type := "msg",
    external_id := none, payload := 0, status := "failed", attempts := 1,
    created_at := 0 }

/-- Storage holding only that failed event. -/
def dbFailedEvent : DB := { webhookEvents := [failedEvent] }

/-- C10: the webhook dedupe lookup has no status filter, so
`process_webhook_event` returns an existing event for the key whatever
its status — `failed` and `dlq_sent` included — creating no row and
attempting no processing (the storage is returned unchanged); by
contrast, the job-queue dedupe lookup answers `none` when every row
for the key is `failed` or `dlq_sent`. -/
theorem webhook_dedupe_matches_any_status
    (db : DB) (w op : Nat) (ev : EventRow) (newId now : Nat) (et : String)
    (ext : Option String) (p : Nat)
    (h : db.webhookEvents.filter
      (fun e => e.workspace_id == w && e.operation_id == some op) = [ev]) :
    process_webhook_event db newId now w (some op) et ext p = .ok (ev, db) ∧
    (∀ db2 : DB, (∀ j ∈ db2.jobQueue, j.workspace_id = w → j.operation_id = some op →
        j.status = "failed" ∨ j.status = "dlq_sent") →
      getJobByOperationId db2 w op = .ok none) := by
  constructor
  · have h1 : getEventByOperationId db w op = .ok (some ev) := by
      unfold getEventByOperationId
      rw [h]
      rfl
    simp [process_webhook_event, h1]
  · intro db2 hstat
    unfold getJobByOperationId
    have hfe : db2.jobQueue.filter (fun j =>
        j.workspace_id == w && j.operation_id == some op &&
          activeJobStatuses.contains j.status) = [] := by
      rw [List.filter_eq_nil_iff]
      intro x hx
      by_cases hw : x.workspace_id = w
      · by_cases hop : x.operation_id = some op
        · rcases hstat x hx hw hop with hs | hs
          · simp only [Bool.and_eq_true, not_and]
            intro _ hcon
            rw [hs] at hcon
            exact absurd hcon (by decide)
          · simp only [Bool.and_eq_true, not_and]
            intro _ hcon
            rw [hs] at hcon
            exact absurd hcon (by decide)
        · simp [hop]
      · simp [hw]
    rw [hfe]
    rfl

/-- Witness for `webhook_dedupe_matches_any_status` on the concrete
failed event. -/
theorem webhook_dedupe_matches_any_status_witness :
    process_webhook_event dbFailedEvent 50 9 1 (some 8) "msg" none 0 =
      .ok (failedEvent, dbFailedEvent) ∧
    (∀ db2 : DB, (∀ j ∈ db2.jobQueue, j.workspace_id = 1 → j.operation_id = some 8 →
        j.status = "failed" ∨ j.status = "dlq_sent") →
      getJobByOperationId db2 1 8 = .ok none) :=
  webhook_dedupe_matches_any_status dbFailedEvent 1 8 failedEvent 50 9 "msg" none 0
    (by decide)

end Conversations
